import Mathlib

/-!
Shallow embedding of the episodic-training notebook
(`notebooks/episodic_training.ipynb`) and proofs of the specification
claims about it.

The notebook is glue code over PyTorch and the easyfsl package: it seeds
the RNGs, builds CUB datasets with `TaskSampler`-driven loaders, builds a
`PrototypicalNetworks` classifier, runs 200 epochs of episodic training
tracking the best validation accuracy, restores the best state, and runs a
final test evaluation.  External effects (parameter updates, loss values,
validation accuracies, sampled episodes) are abstracted as parameters of
the embedding; the control flow, accounting (best-state tracking, loss
averaging, logging) and call order are translated from the notebook cells.
-/

namespace EpisodicTraining

/-- Images are opaque values; their tensor content never matters to the
script's own logic. -/
abbrev Img := Nat

/-- An episode as delivered by `episodic_collate_fn`: the 5-tuple
(support images, support labels, query images, query labels, class ids). -/
structure Episode where
  support_images : List Img
  support_labels : List Nat
  query_images : List Img
  query_labels : List Nat
  true_class_ids : List Nat
deriving Repr, DecidableEq

/-! ### Constants from the notebook (cells 6, 8, 12, 20) -/

def n_way : Nat := 5

def n_shot : Nat := 5

def n_query : Nat := 10

def n_tasks_per_epoch : Nat := 500

def n_validation_tasks : Nat := 100

def n_epochs : Nat := 200

def n_test_tasks : Nat := 1000

def random_seed : Nat := 0

/-- The (N-way, K-shot, Q-query, number of tasks) parameters fixed at
`TaskSampler` construction. -/
structure TaskSampler where
  nWay : Nat
  nShot : Nat
  nQuery : Nat
  nTasks : Nat
deriving Repr, DecidableEq

def train_sampler : TaskSampler :=
  { nWay := n_way, nShot := n_shot, nQuery := n_query, nTasks := n_tasks_per_epoch }

def val_sampler : TaskSampler :=
  { nWay := n_way, nShot := n_shot, nQuery := n_query, nTasks := n_validation_tasks }

def test_sampler : TaskSampler :=
  { nWay := n_way, nShot := n_shot, nQuery := n_query, nTasks := n_test_tasks }

/-- Modelled from the spec: the sampler's episode-collation function
(`TaskSampler.episodic_collate_fn`, part of the easyfsl package and not
included under the sources at hand).  Per the spec it turns one sampled
task — N classes, each with K+Q drawn instances — into the 5-tuple
(support images, support labels, query images, query labels,
class-identifier mapping), support first K per class, query the remaining
Q, labels being episode-local indices 0..N-1. -/
def episodic_collate_fn (nShot nQuery : Nat) (groups : List (Nat × List Img)) : Episode :=
  { support_images := groups.flatMap (fun g => g.2.take nShot)
    support_labels := (List.range groups.length).flatMap (fun i => List.replicate nShot i)
    query_images := groups.flatMap (fun g => g.2.drop nShot)
    query_labels := (List.range groups.length).flatMap (fun i => List.replicate nQuery i)
    true_class_ids := groups.map (fun g => g.1) }

/-! ### `training_epoch` (cell 14) -/

/-- `statistics.mean`: raises (here: `none`) on an empty list, otherwise
the arithmetic mean. -/
def mean (l : List ℚ) : Option ℚ :=
  if l = [] then none else some (l.sum / l.length)

/-- Abstract interface to the external framework state mutation: `step`
is the effect of `loss.backward(); optimizer.step()` on the classifier
parameters for one episode, `lossOf` is the scalar value of
`LOSS_FUNCTION(classification_scores, query_labels)` at the current
parameters. -/
structure TorchModel (S : Type) where
  step : S → Episode → S
  lossOf : S → Episode → ℚ

/-- The model/optimizer interaction events issued inside the
`training_epoch` loop body. -/
inductive MEvent where
  | zero_grad : MEvent
  | process_support_set (imgs : List Img) (labels : List Nat) : MEvent
  | forward (imgs : List Img) : MEvent
  | backward : MEvent
  | optimizer_step : MEvent
deriving Repr, DecidableEq

/-- The fixed per-episode interaction sequence of the `training_epoch`
body: `optimizer.zero_grad()`, `model.process_support_set(support_images,
support_labels)`, `model(query_images)`, `loss.backward()`,
`optimizer.step()`. -/
def episodeEvents (ep : Episode) : List MEvent :=
  [MEvent.zero_grad,
   MEvent.process_support_set ep.support_images ep.support_labels,
   MEvent.forward ep.query_images,
   MEvent.backward,
   MEvent.optimizer_step]

/-- The inner loop of `training_epoch` over the episodes yielded by the
data loader: returns the final parameter state, the emitted interaction
events, and the collected `loss.item()` values (`all_loss`). -/
def runEpisodes {S : Type} (fw : TorchModel S) : S → List Episode → S × List MEvent × List ℚ
  | st, [] => (st, [], [])
  | st, ep :: rest =>
      let st' := fw.step st ep
      let r := runEpisodes fw st' rest
      (r.1, episodeEvents ep ++ r.2.1, fw.lossOf st ep :: r.2.2)

/-- `training_epoch(model, data_loader, optimizer)`: runs the inner loop
and returns `mean(all_loss)` (which raises, i.e. `none`, when the loader
yielded no episode). -/
def training_epoch {S : Type} (fw : TorchModel S) (st : S) (eps : List Episode) :
    S × List MEvent × Option ℚ :=
  let r := runEpisodes fw st eps
  (r.1, r.2.1, mean r.2.2)

/-- The `all_loss` list of `training_epoch`: the `loss.item()` values
appended once per episode, in order. -/
def all_loss {S : Type} (fw : TorchModel S) (st : S) (eps : List Episode) : List ℚ :=
  (runEpisodes fw st eps).2.2

/-! ### The training loop (cell 16) and best-state restore (cell 18) -/

/-- The inputs the training loop draws from the outside world: the
framework's parameter-update effect, the episodes the train loader yields
in each epoch, and the accuracy returned by
`evaluate(few_shot_classifier, val_loader, ...)` in each epoch as a
function of the parameter state. -/
structure LoopCtx (S : Type) where
  fw : TorchModel S
  train_eps : Nat → List Episode
  val_acc : Nat → S → ℚ

/-- The mutable variables of the training loop: the classifier parameters,
`best_state`, `best_validation_accuracy`, the TensorBoard scalars written
so far (as (tag, value, step) triples), and the number of
`train_scheduler.step()` calls made. -/
structure LoopState (S : Type) where
  model : S
  best_state : S
  best_validation_accuracy : ℚ
  logs : List (String × ℚ × Nat)
  sched : Nat

/-- One iteration of `for epoch in range(n_epochs)`: run `training_epoch`,
run the validation `evaluate`, update `best_validation_accuracy` and
`best_state` when the new accuracy is strictly greater, write the two
scalars, step the scheduler.  `none` models the `statistics.mean`
exception escaping when the train loader yielded no episode. -/
def epoch_body {S : Type} (ctx : LoopCtx S) (ls : LoopState S) (e : Nat) :
    Option (LoopState S) :=
  let r := training_epoch ctx.fw ls.model (ctx.train_eps e)
  r.2.2.map fun average_loss =>
    let validation_accuracy := ctx.val_acc e r.1
    let improved := ls.best_validation_accuracy < validation_accuracy
    { model := r.1
      best_state := if improved then r.1 else ls.best_state
      best_validation_accuracy :=
        if improved then validation_accuracy else ls.best_validation_accuracy
      logs := ls.logs ++
        [("Train/loss", average_loss, e), ("Val/acc", validation_accuracy, e)]
      sched := ls.sched + 1 }

/-- The whole training loop, started from `best_state =
few_shot_classifier.state_dict()` and `best_validation_accuracy = 0.0`. -/
def training_loop {S : Type} (ctx : LoopCtx S) (init : S) (n : Nat) :
    Option (LoopState S) :=
  (List.range n).foldlM (epoch_body ctx)
    { model := init, best_state := init, best_validation_accuracy := 0,
      logs := [], sched := 0 }

/-- The classifier parameters after cell 18's
`few_shot_classifier.load_state_dict(best_state)`. -/
def script_restored_model {S : Type} (ctx : LoopCtx S) (init : S) (n : Nat) :
    Option S :=
  (training_loop ctx init n).map (fun fin => fin.best_state)

/-! ### Derived per-epoch quantities -/

/-- The classifier parameter state after epoch `e`'s training pass
(equivalently, entering epoch `e`; validation does not mutate
parameters). -/
def stateAfter {S : Type} (ctx : LoopCtx S) (init : S) : Nat → S
  | 0 => init
  | e + 1 => (runEpisodes ctx.fw (stateAfter ctx init e) (ctx.train_eps e)).1

/-- The `all_loss` list collected during epoch `e`'s training pass. -/
def epochLosses {S : Type} (ctx : LoopCtx S) (init : S) (e : Nat) : List ℚ :=
  (runEpisodes ctx.fw (stateAfter ctx init e) (ctx.train_eps e)).2.2

/-- The average training loss of epoch `e`. -/
def avgLossAt {S : Type} (ctx : LoopCtx S) (init : S) (e : Nat) : ℚ :=
  (epochLosses ctx init e).sum / (epochLosses ctx init e).length

/-- The validation accuracy observed in epoch `e`. -/
def accAt {S : Type} (ctx : LoopCtx S) (init : S) (e : Nat) : ℚ :=
  ctx.val_acc e (stateAfter ctx init (e + 1))

/-- The value of `best_validation_accuracy` entering epoch `e`: the
maximum of the initial `0.0` and the accuracies of epochs `0..e-1`. -/
def bestAccAt {S : Type} (ctx : LoopCtx S) (init : S) : Nat → ℚ
  | 0 => 0
  | e + 1 => max (bestAccAt ctx init e) (accAt ctx init e)

/-- The value of `best_state` entering epoch `e`. -/
def snapshotAt {S : Type} (ctx : LoopCtx S) (init : S) : Nat → S
  | 0 => init
  | e + 1 =>
      if bestAccAt ctx init e < accAt ctx init e then stateAfter ctx init (e + 1)
      else snapshotAt ctx init e

/-- The (tag, value, step) scalars written during epochs `0..n-1`. -/
def expectedLogs {S : Type} (ctx : LoopCtx S) (init : S) (n : Nat) :
    List (String × ℚ × Nat) :=
  (List.range n).flatMap fun e =>
    [("Train/loss", avgLossAt ctx init e, e), ("Val/acc", accAt ctx init e, e)]

/-- Spec-side description: epoch `e` "improves" when its validation
accuracy strictly exceeds the initial best of `0.0` and every previously
observed validation accuracy. -/
def improves {S : Type} (ctx : LoopCtx S) (init : S) (e : Nat) : Bool :=
  decide (0 < accAt ctx init e) &&
    (List.range e).all fun i => decide (accAt ctx init i < accAt ctx init e)

/-- Spec-side description of the restored parameters: the state after the
training pass of the most recent improving epoch, or the pre-training
state when no epoch improves. -/
def restored_state_spec {S : Type} (ctx : LoopCtx S) (init : S) (n : Nat) : S :=
  match ((List.range n).filter (improves ctx init)).getLast? with
  | some e => stateAfter ctx init (e + 1)
  | none => init

/-- The loop variables entering epoch `n` expressed through the derived
per-epoch quantities. -/
def canonState {S : Type} (ctx : LoopCtx S) (init : S) (n : Nat) : LoopState S :=
  { model := stateAfter ctx init n
    best_state := snapshotAt ctx init n
    best_validation_accuracy := bestAccAt ctx init n
    logs := expectedLogs ctx init n
    sched := n }

/-! ### The evaluation routine -/

/-- The number of correctly classified query images of one episode under
a per-episode decision rule. -/
def episodeCorrect (pred : Episode → Img → Nat) (ep : Episode) : Nat :=
  (ep.query_images.zip ep.query_labels).countP fun p => pred ep p.1 == p.2

/-- The number of query predictions made on one episode. -/
def episodeTotal (ep : Episode) : Nat :=
  (ep.query_images.zip ep.query_labels).length

/-- Modelled from the spec: `evaluate(model, data_loader, device,
tqdm_prefix)` from `easyfsl.methods.utils` (part of the easyfsl package
and not included under the sources at hand).  Per the spec it computes
the aggregate accuracy over an episode loader: for each episode the
support-conditioned model classifies the query images, and the routine
returns (total correctly classified) / (total classified), a scalar
accuracy in [0, 1]. -/
def evaluate (pred : Episode → Img → Nat) (tasks : List Episode) : ℚ :=
  ((tasks.map (episodeCorrect pred)).sum : ℚ) /
    ((tasks.map episodeTotal).sum : ℚ)

/-! ### The script's call trace (cells 4-22 in order) -/

/-- The external calls the script makes, in program order. -/
inductive Event where
  | seed_numpy (s : Nat) : Event
  | seed_torch (s : Nat) : Event
  | seed_random (s : Nat) : Event
  | set_cudnn_deterministic (b : Bool) : Event
  | set_cudnn_benchmark (b : Bool) : Event
  | load_dataset (split : String) : Event
  | build_sampler (s : TaskSampler) : Event
  | build_loader (split : String) : Event
  | build_model : Event
  | build_optimizer : Event
  | build_scheduler : Event
  | build_writer : Event
  | train_pass (e : Nat) : Event
  | val_pass (e : Nat) : Event
  | snapshot_state (e : Nat) : Event
  | add_scalar (tag : String) (e : Nat) : Event
  | scheduler_step (e : Nat) : Event
  | load_best_state : Event
  | test_pass : Event
deriving Repr, DecidableEq

/-- The calls made by iteration `e` of the training loop; `snap e` says
whether this epoch takes a new best-state snapshot (it depends on the
accuracies, which the trace model keeps abstract). -/
def epoch_trace (snap : Nat → Bool) (e : Nat) : List Event :=
  [Event.train_pass e, Event.val_pass e] ++
    (if snap e then [Event.snapshot_state e] else []) ++
    [Event.add_scalar "Train/loss" e, Event.add_scalar "Val/acc" e,
     Event.scheduler_step e]

/-- The calls made before the training loop: seeding (cell 4), train/val
datasets, samplers and loaders (cell 8), model (cell 10), optimizer,
scheduler and writer (cell 12). -/
def setup_trace : List Event :=
  [Event.seed_numpy random_seed, Event.seed_torch random_seed,
   Event.seed_random random_seed,
   Event.set_cudnn_deterministic true, Event.set_cudnn_benchmark false,
   Event.load_dataset "train", Event.load_dataset "val",
   Event.build_sampler train_sampler, Event.build_sampler val_sampler,
   Event.build_loader "train", Event.build_loader "val",
   Event.build_model, Event.build_optimizer, Event.build_scheduler,
   Event.build_writer]

/-- The calls made after the training loop: the best-state restore
(cell 18), the test dataset, sampler and loader (cell 20), and the final
test evaluation (cell 22). -/
def final_trace : List Event :=
  [Event.load_best_state,
   Event.load_dataset "test", Event.build_sampler test_sampler,
   Event.build_loader "test", Event.test_pass]

/-- The script's full call sequence, cells 4-22 in program order. -/
def script_trace (snap : Nat → Bool) : List Event :=
  setup_trace ++ (List.range n_epochs).flatMap (epoch_trace snap) ++ final_trace

/-- Is this event a full pass over one of the three loaders, or the
best-state restore? -/
def isPassOrRestore : Event → Bool
  | Event.train_pass _ => true
  | Event.val_pass _ => true
  | Event.test_pass => true
  | Event.load_best_state => true
  | _ => false

/-- Is this event one of the seeding / cuDNN-determinism settings of
cell 4? -/
def isSeedingEvent : Event → Bool
  | Event.seed_numpy _ => true
  | Event.seed_torch _ => true
  | Event.seed_random _ => true
  | Event.set_cudnn_deterministic _ => true
  | Event.set_cudnn_benchmark _ => true
  | _ => false

/-- Is this event a `tb_writer.add_scalar` call? -/
def isLogEvent : Event → Bool
  | Event.add_scalar _ _ => true
  | _ => false

/-- Straight-line execution of the script's calls with no `try`/`except`:
each call runs in order, and the first exception aborts the run,
propagating unchanged. -/
def run_calls {E : Type} (env : Event → Except E Unit) : List Event → Except E Unit
  | [] => Except.ok ()
  | ev :: rest =>
      match env ev with
      | Except.ok _ => run_calls env rest
      | Except.error err => Except.error err

/-- Running the whole script under an environment that decides the
outcome of each external call. -/
def run_script {E : Type} (snap : Nat → Bool) (env : Event → Except E Unit) :
    Except E Unit :=
  run_calls env (script_trace snap)

/-! ### Concrete inputs used by the witness theorems -/

def wEpisode : Episode :=
  { support_images := List.range 25
    support_labels := (List.range 5).flatMap fun i => List.replicate 5 i
    query_images := List.range 50
    query_labels := (List.range 5).flatMap fun i => List.replicate 10 i
    true_class_ids := [3, 1, 4, 5, 9] }

def wTorch : TorchModel Nat :=
  { step := fun s _ => s + 1, lossOf := fun s _ => (s : ℚ) }

def wCtx : LoopCtx Nat :=
  { fw := wTorch
    train_eps := fun _ => [wEpisode]
    val_acc := fun e _ => (e : ℚ) / n_epochs }

def wGroups : List (Nat × List Img) :=
  (List.range 5).map fun c => (c, List.range 15)

def wSnap : Nat → Bool := fun _ => false

def wEnv : Event → Except String Unit := fun ev =>
  match ev with
  | Event.seed_torch _ => Except.error "CUDA unavailable"
  | _ => Except.ok ()

/-! ## Helper lemmas -/

lemma runEpisodes_fst {S : Type} (fw : TorchModel S) :
    ∀ (eps : List Episode) (st : S), (runEpisodes fw st eps).1 = eps.foldl fw.step st := by
  intro eps
  induction eps with
  | nil => intro st; rfl
  | cons ep rest ih => intro st; simp [runEpisodes, List.foldl, ih]

lemma runEpisodes_events {S : Type} (fw : TorchModel S) :
    ∀ (eps : List Episode) (st : S),
      (runEpisodes fw st eps).2.1 = eps.flatMap episodeEvents := by
  intro eps
  induction eps with
  | nil => intro st; rfl
  | cons ep rest ih => intro st; simp [runEpisodes, ih]

lemma runEpisodes_losses_length {S : Type} (fw : TorchModel S) :
    ∀ (eps : List Episode) (st : S), (all_loss fw st eps).length = eps.length := by
  intro eps
  induction eps with
  | nil => intro st; rfl
  | cons ep rest ih =>
      intro st
      have := ih (fw.step st ep)
      simp only [all_loss, runEpisodes, List.length_cons] at this ⊢
      omega

lemma count_optimizer_step_flatMap :
    ∀ eps : List Episode,
      (eps.flatMap episodeEvents).count MEvent.optimizer_step = eps.length := by
  intro eps
  induction eps with
  | nil => rfl
  | cons ep rest ih =>
      simp only [List.flatMap_cons, List.count_append, ih, episodeEvents]
      simp [List.count_cons]
      omega

lemma sum_map_const_nat {α : Type} (l : List α) (f : α → Nat) (c : Nat)
    (h : ∀ x ∈ l, f x = c) : (l.map f).sum = l.length * c := by
  induction l with
  | nil => simp
  | cons x xs ih =>
      simp only [List.map_cons, List.sum_cons, List.length_cons]
      rw [h x (List.mem_cons_self x xs), ih fun y hy => h y (List.mem_cons_of_mem x hy)]
      ring

lemma expectedLogs_succ {S : Type} (ctx : LoopCtx S) (init : S) (e : Nat) :
    expectedLogs ctx init e ++
      [("Train/loss", avgLossAt ctx init e, e), ("Val/acc", accAt ctx init e, e)] =
      expectedLogs ctx init (e + 1) := by
  rw [expectedLogs, expectedLogs, List.range_succ, List.flatMap_append]
  simp

lemma training_loop_succ {S : Type} (ctx : LoopCtx S) (init : S) (n : Nat) :
    training_loop ctx init (n + 1) =
      (training_loop ctx init n).bind fun ls => epoch_body ctx ls n := by
  rw [training_loop, training_loop, List.range_succ, List.foldlM_append]
  simp [List.foldlM_cons, List.foldlM_nil]

lemma epoch_body_canonical {S : Type} (ctx : LoopCtx S) (init : S) (e : Nat)
    (h : ctx.train_eps e ≠ []) :
    epoch_body ctx (canonState ctx init e) e = some (canonState ctx init (e + 1)) := by
  have hne : (runEpisodes ctx.fw (stateAfter ctx init e) (ctx.train_eps e)).2.2 ≠ [] := by
    intro hem
    have hl := runEpisodes_losses_length ctx.fw (ctx.train_eps e) (stateAfter ctx init e)
    rw [all_loss, hem] at hl
    exact h (List.eq_nil_of_length_eq_zero hl.symm)
  have hmean : (training_epoch ctx.fw (stateAfter ctx init e) (ctx.train_eps e)).2.2 =
      some (avgLossAt ctx init e) := by
    simp [training_epoch, mean, hne, avgLossAt, epochLosses]
  have hstate : (training_epoch ctx.fw (stateAfter ctx init e) (ctx.train_eps e)).1 =
      stateAfter ctx init (e + 1) := rfl
  have hmax : (if bestAccAt ctx init e < accAt ctx init e
      then accAt ctx init e else bestAccAt ctx init e) = bestAccAt ctx init (e + 1) := by
    rw [bestAccAt]
    rcases lt_or_ge (bestAccAt ctx init e) (accAt ctx init e) with hlt | hge
    · rw [if_pos hlt, max_eq_right hlt.le]
    · rw [if_neg (not_lt.mpr hge), max_eq_left hge]
  show ((training_epoch ctx.fw (stateAfter ctx init e) (ctx.train_eps e)).2.2.map _) = _
  rw [hmean, Option.map_some']
  refine congrArg some ?_
  show ({ model := _, best_state := _, best_validation_accuracy := _, logs := _,
          sched := _ } : LoopState S) = canonState ctx init (e + 1)
  rw [canonState]
  refine LoopState.mk.injEq .. ▸ ?_
  exact ⟨hstate, by rw [snapshotAt]; rfl, hmax, expectedLogs_succ ctx init e, rfl⟩

/-- The training loop, run on epochs whose train loader yields at least
one episode, computes exactly the derived per-epoch quantities. -/
lemma training_loop_eq {S : Type} (ctx : LoopCtx S) (init : S) :
    ∀ n, (∀ e, e < n → ctx.train_eps e ≠ []) →
      training_loop ctx init n = some (canonState ctx init n) := by
  intro n
  induction n with
  | zero => intro _; rfl
  | succ n ih =>
      intro h
      rw [training_loop_succ, ih fun e he => h e (Nat.lt_succ_of_lt he)]
      exact epoch_body_canonical ctx init n (h n (Nat.lt_succ_self n))

lemma bestAccAt_eq_foldl {S : Type} (ctx : LoopCtx S) (init : S) :
    ∀ n, bestAccAt ctx init n = ((List.range n).map (accAt ctx init)).foldl max 0 := by
  intro n
  induction n with
  | zero => rfl
  | succ n ih =>
      rw [bestAccAt, ih, List.range_succ, List.map_append, List.foldl_append]
      rfl

lemma bestAccAt_mono {S : Type} (ctx : LoopCtx S) (init : S) :
    ∀ m n, m ≤ n → bestAccAt ctx init m ≤ bestAccAt ctx init n := by
  intro m n hmn
  induction n with
  | zero => exact Nat.le_zero.mp hmn ▸ le_refl _
  | succ n ih =>
      rcases Nat.lt_succ_iff_lt_or_eq.mp (Nat.lt_succ_of_le hmn) with hlt | heq
      · exact le_trans (ih (Nat.lt_succ_iff.mp hlt)) (le_max_left _ _)
      · exact heq ▸ le_refl _

lemma bestAccAt_lt_iff {S : Type} (ctx : LoopCtx S) (init : S) :
    ∀ e (x : ℚ), bestAccAt ctx init e < x ↔
      0 < x ∧ ∀ i, i < e → accAt ctx init i < x := by
  intro e x
  induction e with
  | zero =>
      rw [bestAccAt]
      exact ⟨fun hx => ⟨hx, fun i hi => absurd hi (Nat.not_lt_zero i)⟩, fun h => h.1⟩
  | succ e ih =>
      rw [bestAccAt, max_lt_iff, ih]
      constructor
      · rintro ⟨⟨hx, hall⟩, he⟩
        refine ⟨hx, fun i hi => ?_⟩
        rcases Nat.lt_succ_iff_lt_or_eq.mp hi with hlt | heq
        · exact hall i hlt
        · exact heq ▸ he
      · rintro ⟨hx, hall⟩
        exact ⟨⟨hx, fun i hi => hall i (Nat.lt_succ_of_lt hi)⟩,
          hall e (Nat.lt_succ_self e)⟩

lemma improves_iff {S : Type} (ctx : LoopCtx S) (init : S) (e : Nat) :
    improves ctx init e = true ↔ bestAccAt ctx init e < accAt ctx init e := by
  rw [improves, bestAccAt_lt_iff, Bool.and_eq_true, decide_eq_true_iff,
    List.all_eq_true]
  constructor
  · rintro ⟨hx, hall⟩
    exact ⟨hx, fun i hi => decide_eq_true_iff.mp
      (hall i (List.mem_range.mpr hi))⟩
  · rintro ⟨hx, hall⟩
    exact ⟨hx, fun i hi => decide_eq_true_iff.mpr
      (hall i (List.mem_range.mp hi))⟩

lemma snapshotAt_eq_spec {S : Type} (ctx : LoopCtx S) (init : S) :
    ∀ n, snapshotAt ctx init n = restored_state_spec ctx init n := by
  intro n
  induction n with
  | zero => rfl
  | succ n ih =>
      rw [snapshotAt, restored_state_spec, List.range_succ, List.filter_append, ih]
      rcases himp : improves ctx init n with _ | _
      · have hcond : ¬ bestAccAt ctx init n < accAt ctx init n := fun hc =>
          by rw [(improves_iff ctx init n).mpr hc] at himp; cases himp
        rw [if_neg hcond, restored_state_spec]
        simp [List.filter, himp]
      · have hcond : bestAccAt ctx init n < accAt ctx init n :=
          (improves_iff ctx init n).mp himp
        rw [if_pos hcond]
        simp [List.filter, himp]

lemma filter_flatMap_epoch (snap : Nat → Bool) (p : Event → Bool) (g : Nat → List Event)
    (hep : ∀ e, (epoch_trace snap e).filter p = g e) :
    ∀ l : List Nat, (l.flatMap (epoch_trace snap)).filter p = l.flatMap g := by
  intro l
  induction l with
  | nil => rfl
  | cons a l ih =>
      rw [List.flatMap_cons, List.flatMap_cons, List.filter_append, hep, ih]

lemma epoch_trace_filter_log (snap : Nat → Bool) (e : Nat) :
    (epoch_trace snap e).filter isLogEvent =
      [Event.add_scalar "Train/loss" e, Event.add_scalar "Val/acc" e] := by
  rcases hsnap : snap e with _ | _ <;> simp only [epoch_trace, hsnap] <;> rfl

lemma epoch_trace_filter_pass (snap : Nat → Bool) (e : Nat) :
    (epoch_trace snap e).filter isPassOrRestore =
      [Event.train_pass e, Event.val_pass e] := by
  rcases hsnap : snap e with _ | _ <;> simp only [epoch_trace, hsnap] <;> rfl

lemma epoch_trace_filter_seeding (snap : Nat → Bool) (e : Nat) :
    (epoch_trace snap e).filter isSeedingEvent = [] := by
  rcases hsnap : snap e with _ | _ <;> simp only [epoch_trace, hsnap] <;> rfl

/-! ## Claims -/

/-- C3: for every episode delivered to `training_epoch`, the model
interaction is the fixed sequence zero-grad, support-set ingestion via
`process_support_set`, forward call on the query images, backpropagation
of the loss, and exactly one optimizer step; hence the parameter state is
mutated by the optimizer exactly once per episode (the final state is the
fold of one `step` per episode over the initial state). -/
theorem claim_C3 {S : Type} (fw : TorchModel S) (st : S) (eps : List Episode) :
    (training_epoch fw st eps).2.1 = eps.flatMap episodeEvents ∧
    (training_epoch fw st eps).2.1.count MEvent.optimizer_step = eps.length ∧
    (training_epoch fw st eps).1 = eps.foldl fw.step st := by
  refine ⟨?_, ?_, ?_⟩
  · simpa [training_epoch] using runEpisodes_events fw eps st
  · simpa [training_epoch, runEpisodes_events fw eps st] using
      count_optimizer_step_flatMap eps
  · simpa [training_epoch] using runEpisodes_fst fw eps st

/-- C8: for a non-empty episode sequence, `training_epoch` returns the
arithmetic mean of the collected per-episode losses; for an empty
sequence `statistics.mean` raises (modelled as `none`). -/
theorem claim_C8 {S : Type} (fw : TorchModel S) (st : S) (eps : List Episode)
    (h : eps ≠ []) :
    (training_epoch fw st eps).2.2 =
      some ((all_loss fw st eps).sum / ((all_loss fw st eps).length : ℚ)) ∧
    (training_epoch fw st ([] : List Episode)).2.2 = none := by
  constructor
  · have hne : (runEpisodes fw st eps).2.2 ≠ [] := by
      intro hem
      have := runEpisodes_losses_length fw eps st
      rw [all_loss, hem] at this
      exact h (List.eq_nil_of_length_eq_zero this.symm)
    simp [training_epoch, mean, all_loss, hne]
  · rfl

/-- C8 witness: the mean is returned on a concrete singleton episode
list. -/
theorem claim_C8_witness :
    (([wEpisode] : List Episode) ≠ []) ∧
    (training_epoch wTorch 0 [wEpisode]).2.2 =
      some ((all_loss wTorch 0 [wEpisode]).sum /
        ((all_loss wTorch 0 [wEpisode]).length : ℚ)) :=
  ⟨by simp, (claim_C8 wTorch 0 [wEpisode] (by simp)).1⟩

/-- C4: an episode produced by the collation function is the 5-tuple
(support images, support labels, query images, query labels, class ids)
whose component lengths are fixed by the (N-way, K-shot, Q-query)
parameters; the three samplers of the script are all constructed with
N = 5, K = 5, Q = 10; and `training_epoch` consumes exactly this tuple
shape (its per-episode events are built from the five fields). -/
theorem claim_C4 (nWay nShot nQuery : Nat) (groups : List (Nat × List Img))
    (hlen : groups.length = nWay)
    (hg : ∀ g ∈ groups, (g.2 : List Img).length = nShot + nQuery) :
    (episodic_collate_fn nShot nQuery groups).support_images.length = nWay * nShot ∧
    (episodic_collate_fn nShot nQuery groups).support_labels.length = nWay * nShot ∧
    (episodic_collate_fn nShot nQuery groups).query_images.length = nWay * nQuery ∧
    (episodic_collate_fn nShot nQuery groups).query_labels.length = nWay * nQuery ∧
    (episodic_collate_fn nShot nQuery groups).true_class_ids.length = nWay ∧
    (train_sampler.nWay, train_sampler.nShot, train_sampler.nQuery) = (5, 5, 10) ∧
    (val_sampler.nWay, val_sampler.nShot, val_sampler.nQuery) = (5, 5, 10) ∧
    (test_sampler.nWay, test_sampler.nShot, test_sampler.nQuery) = (5, 5, 10) ∧
    episodeEvents (episodic_collate_fn nShot nQuery groups) =
      [MEvent.zero_grad,
       MEvent.process_support_set
         (episodic_collate_fn nShot nQuery groups).support_images
         (episodic_collate_fn nShot nQuery groups).support_labels,
       MEvent.forward (episodic_collate_fn nShot nQuery groups).query_images,
       MEvent.backward, MEvent.optimizer_step] := by
  refine ⟨?_, ?_, ?_, ?_, ?_, rfl, rfl, rfl, rfl⟩
  · rw [episodic_collate_fn, List.length_flatMap, ← hlen]
    exact sum_map_const_nat groups _ nShot fun g hgm => by
      simp [List.length_take, hg g hgm]
  · rw [episodic_collate_fn]
    simp only [List.length_flatMap]
    have hs := sum_map_const_nat (List.range groups.length)
      (List.length ∘ fun i => List.replicate nShot i) nShot fun i _ => by simp
    rw [hs, List.length_range, hlen]
  · rw [episodic_collate_fn, List.length_flatMap, ← hlen]
    exact sum_map_const_nat groups _ nQuery fun g hgm => by
      simp [List.length_drop, hg g hgm]
  · rw [episodic_collate_fn]
    simp only [List.length_flatMap]
    have hs := sum_map_const_nat (List.range groups.length)
      (List.length ∘ fun i => List.replicate nQuery i) nQuery fun i _ => by simp
    rw [hs, List.length_range, hlen]
  · simp [episodic_collate_fn, hlen]

/-- C4 witness: a concrete sampled task of 5 classes with 15 instances
each collates to an episode of the (5, 5, 10) shape. -/
theorem claim_C4_witness :
    wGroups.length = 5 ∧ (∀ g ∈ wGroups, (g.2 : List Img).length = 5 + 10) ∧
    (episodic_collate_fn 5 10 wGroups).support_images.length = 5 * 5 ∧
    (episodic_collate_fn 5 10 wGroups).query_images.length = 5 * 10 := by
  have h := claim_C4 5 5 10 wGroups (by decide) (by decide)
  exact ⟨by decide, by decide, h.1, h.2.2.1⟩

/-- C5: the evaluation routine returns a scalar accuracy in the closed
interval [0, 1] for every model decision rule and every episode list —
in particular every per-epoch validation accuracy and the final test
accuracy. -/
theorem claim_C5 (pred : Episode → Img → Nat) (tasks : List Episode) :
    0 ≤ evaluate pred tasks ∧ evaluate pred tasks ≤ 1 := by
  have hct : (tasks.map (episodeCorrect pred)).sum ≤ (tasks.map episodeTotal).sum := by
    apply List.sum_le_sum
    intro ep _
    exact List.countP_le_length _
  constructor
  · exact div_nonneg (by positivity) (by positivity)
  · rcases Nat.eq_zero_or_pos (tasks.map episodeTotal).sum with h0 | hpos
    · have hc0 : (tasks.map (episodeCorrect pred)).sum = 0 :=
        Nat.le_zero.mp (h0 ▸ hct)
      simp [evaluate, hc0]
    · rw [evaluate, div_le_one (by exact_mod_cast hpos)]
      exact_mod_cast hct

/-- C1: when every epoch's train loader yields at least one episode, the
state restored by `load_state_dict(best_state)` after the loop is the
state after the training pass of the most recent epoch whose validation
accuracy strictly exceeded the initial best of 0.0 and every previously
observed validation accuracy (the pre-training state when no such epoch
exists); and the code's snapshot condition
`validation_accuracy > best_validation_accuracy` holds at epoch `e`
exactly under that description. -/
theorem claim_C1 {S : Type} (ctx : LoopCtx S) (init : S) (n : Nat)
    (h : ∀ e, e < n → ctx.train_eps e ≠ []) :
    script_restored_model ctx init n = some (restored_state_spec ctx init n) ∧
    (∀ e, improves ctx init e = true ↔
        (0 < accAt ctx init e ∧ ∀ i, i < e → accAt ctx init i < accAt ctx init e)) ∧
    (∀ e fe, e < n → training_loop ctx init e = some fe →
        (fe.best_validation_accuracy < accAt ctx init e ↔
          improves ctx init e = true)) := by
  refine ⟨?_, ?_, ?_⟩
  · rw [script_restored_model, training_loop_eq ctx init n h, Option.map_some']
    exact congrArg some ((snapshotAt_eq_spec ctx init n) ▸ rfl)
  · intro e
    rw [improves_iff, bestAccAt_lt_iff]
  · intro e fe he hloop
    have := training_loop_eq ctx init e fun i hi => h i (hi.trans he)
    rw [this] at hloop
    rw [← Option.some.inj hloop, canonState, improves_iff]

/-- C1 witness: the theorem applied to a concrete two-epoch run. -/
theorem claim_C1_witness :
    (∀ e, e < 2 → wCtx.train_eps e ≠ []) ∧
    script_restored_model wCtx 0 2 = some (restored_state_spec wCtx 0 2) :=
  ⟨fun e _ => by simp [wCtx], (claim_C1 wCtx 0 2 fun e _ => by simp [wCtx]).1⟩

/-- C7: for every epoch `e` of the `n_epochs = 200` epochs, exactly the
two scalars `("Train/loss", average loss of epoch e, e)` and
`("Val/acc", validation accuracy of epoch e, e)` are written, in order;
and in the script's full call sequence the only `add_scalar` calls are
those two per training-loop iteration — none outside the loop. -/
theorem claim_C7 {S : Type} (ctx : LoopCtx S) (init : S)
    (h : ∀ e, e < n_epochs → ctx.train_eps e ≠ []) :
    (training_loop ctx init n_epochs).map (fun fin => fin.logs) =
      some ((List.range n_epochs).flatMap fun e =>
        [("Train/loss", avgLossAt ctx init e, e),
         ("Val/acc", accAt ctx init e, e)]) ∧
    ∀ snap : Nat → Bool,
      (script_trace snap).filter isLogEvent =
        (List.range n_epochs).flatMap fun e =>
          [Event.add_scalar "Train/loss" e, Event.add_scalar "Val/acc" e] := by
  constructor
  · rw [training_loop_eq ctx init n_epochs h, Option.map_some']
    exact congrArg some (by rw [show (canonState ctx init n_epochs).logs =
      expectedLogs ctx init n_epochs from rfl, expectedLogs])
  · intro snap
    rw [script_trace, List.filter_append, List.filter_append,
      filter_flatMap_epoch snap isLogEvent _ (epoch_trace_filter_log snap),
      show setup_trace.filter isLogEvent = [] from rfl,
      show final_trace.filter isLogEvent = [] from rfl,
      List.nil_append, List.append_nil]

/-- C7 witness: the theorem applied to a concrete context that yields one
episode in each of the 200 epochs. -/
theorem claim_C7_witness :
    (∀ e, e < n_epochs → wCtx.train_eps e ≠ []) ∧
    (training_loop wCtx 0 n_epochs).map (fun fin => fin.logs) =
      some ((List.range n_epochs).flatMap fun e =>
        [("Train/loss", avgLossAt wCtx 0 e, e), ("Val/acc", accAt wCtx 0 e, e)]) :=
  ⟨fun e _ => by simp [wCtx], (claim_C7 wCtx 0 fun e _ => by simp [wCtx]).1⟩

/-- C9: `best_validation_accuracy` equals the maximum of the initial 0.0
and all validation accuracies observed so far, it never decreases as the
loop advances, and an epoch whose validation accuracy merely equals the
current best (the comparison being strict) changes neither `best_state`
nor `best_validation_accuracy`. -/
theorem claim_C9 {S : Type} (ctx : LoopCtx S) (init : S) (n : Nat)
    (h : ∀ e, e < n → ctx.train_eps e ≠ []) :
    (∀ fin, training_loop ctx init n = some fin →
        fin.best_validation_accuracy =
          ((List.range n).map (accAt ctx init)).foldl max 0) ∧
    (∀ m fm fin, m ≤ n → training_loop ctx init m = some fm →
        training_loop ctx init n = some fin →
        fm.best_validation_accuracy ≤ fin.best_validation_accuracy) ∧
    (∀ e fe fe1, e < n → training_loop ctx init e = some fe →
        training_loop ctx init (e + 1) = some fe1 →
        accAt ctx init e = fe.best_validation_accuracy →
        fe1.best_state = fe.best_state ∧
          fe1.best_validation_accuracy = fe.best_validation_accuracy) := by
  refine ⟨?_, ?_, ?_⟩
  · intro fin hfin
    rw [training_loop_eq ctx init n h] at hfin
    rw [← Option.some.inj hfin, canonState, bestAccAt_eq_foldl]
  · intro m fm fin hmn hfm hfin
    rw [training_loop_eq ctx init m fun i hi => h i (lt_of_lt_of_le hi hmn)] at hfm
    rw [training_loop_eq ctx init n h] at hfin
    rw [← Option.some.inj hfm, ← Option.some.inj hfin, canonState, canonState]
    exact bestAccAt_mono ctx init m n hmn
  · intro e fe fe1 he hfe hfe1 heq
    rw [training_loop_eq ctx init e fun i hi => h i (hi.trans he)] at hfe
    rw [training_loop_eq ctx init (e + 1) fun i hi =>
      h i (lt_of_lt_of_le hi he)] at hfe1
    obtain rfl : canonState ctx init e = fe := Option.some.inj hfe
    obtain rfl : canonState ctx init (e + 1) = fe1 := Option.some.inj hfe1
    simp only [canonState] at heq ⊢
    have hnlt : ¬ bestAccAt ctx init e < accAt ctx init e := by
      rw [heq]
      exact lt_irrefl _
    refine ⟨by rw [snapshotAt, if_neg hnlt], ?_⟩
    rw [bestAccAt, max_eq_left (le_of_eq heq)]

/-- C9 witness: the theorem applied to a concrete two-epoch run. -/
theorem claim_C9_witness :
    (∀ e, e < 2 → wCtx.train_eps e ≠ []) ∧
    (∀ fin, training_loop wCtx 0 2 = some fin →
        fin.best_validation_accuracy =
          ((List.range 2).map (accAt wCtx 0)).foldl max 0) :=
  ⟨fun e _ => by simp [wCtx], (claim_C9 wCtx 0 2 fun e _ => by simp [wCtx]).1⟩

lemma run_calls_append_error {E : Type} (env : Event → Except E Unit) (ev : Event)
    (err : E) (post : List Event) :
    ∀ pre : List Event, (∀ e ∈ pre, env e = Except.ok ()) →
      env ev = Except.error err →
      run_calls env (pre ++ ev :: post) = Except.error err := by
  intro pre
  induction pre with
  | nil =>
      intro _ herr
      show (match env ev with
        | Except.ok _ => run_calls env post
        | Except.error err => Except.error err) = Except.error err
      rw [herr]
  | cons a l ih =>
      intro hok herr
      show (match env a with
        | Except.ok _ => run_calls env (l ++ ev :: post)
        | Except.error err => Except.error err) = Except.error err
      rw [hok a (List.mem_cons_self a l)]
      exact ih (fun e he => hok e (List.mem_cons_of_mem a he)) herr

/-- C2: filtered to loader passes and the best-state restore, the
script's call sequence is exactly `n_epochs` pairs of a training pass
immediately followed by a validation pass, then the restore, then one
single test pass at the very end; and `n_epochs` is 200. -/
theorem claim_C2 (snap : Nat → Bool) :
    (script_trace snap).filter isPassOrRestore =
      ((List.range n_epochs).flatMap fun e =>
        [Event.train_pass e, Event.val_pass e]) ++
        [Event.load_best_state, Event.test_pass] ∧
    n_epochs = 200 := by
  constructor
  · rw [script_trace, List.filter_append, List.filter_append,
      filter_flatMap_epoch snap isPassOrRestore _ (epoch_trace_filter_pass snap),
      show setup_trace.filter isPassOrRestore = [] from rfl,
      show final_trace.filter isPassOrRestore =
        [Event.load_best_state, Event.test_pass] from rfl,
      List.nil_append]
  · rfl

/-- C6: the script installs no error handling: whenever some external
call raises while all calls before it succeeded, the run aborts there
and the exception propagates unchanged to the caller. -/
theorem claim_C6 {E : Type} (snap : Nat → Bool) (env : Event → Except E Unit)
    (pre post : List Event) (ev : Event) (err : E)
    (htrace : script_trace snap = pre ++ ev :: post)
    (hok : ∀ e ∈ pre, env e = Except.ok ())
    (herr : env ev = Except.error err) :
    run_script snap env = Except.error err := by
  rw [run_script, htrace]
  exact run_calls_append_error env ev err post pre hok herr

/-- C6 witness: a concrete run in which the second external call (the
torch seeding) raises aborts with exactly that error. -/
theorem claim_C6_witness :
    script_trace wSnap =
      [Event.seed_numpy 0] ++ Event.seed_torch 0 :: (script_trace wSnap).drop 2 ∧
    wEnv (Event.seed_torch 0) = Except.error "CUDA unavailable" ∧
    run_script wSnap wEnv = Except.error "CUDA unavailable" := by
  refine ⟨rfl, rfl, ?_⟩
  exact claim_C6 wSnap wEnv [Event.seed_numpy 0] ((script_trace wSnap).drop 2)
    (Event.seed_torch 0) "CUDA unavailable" rfl
    (fun e he => by
      rw [List.mem_singleton] at he
      subst he
      rfl)
    rfl

/-- C10: the first five operations of the script — before anything else,
in particular before any stochastic operation — seed numpy, torch and
python random with the same fixed seed 0 and force deterministic cuDNN
behavior; no seeding or cuDNN setting occurs anywhere later. -/
theorem claim_C10 (snap : Nat → Bool) :
    (script_trace snap).take 5 =
      [Event.seed_numpy 0, Event.seed_torch 0, Event.seed_random 0,
       Event.set_cudnn_deterministic true, Event.set_cudnn_benchmark false] ∧
    ∀ ev ∈ (script_trace snap).drop 5, isSeedingEvent ev = false := by
  constructor
  · rfl
  · intro ev hev
    have hdecomp : (script_trace snap).drop 5 =
        ([Event.load_dataset "train", Event.load_dataset "val",
          Event.build_sampler train_sampler, Event.build_sampler val_sampler,
          Event.build_loader "train", Event.build_loader "val",
          Event.build_model, Event.build_optimizer, Event.build_scheduler,
          Event.build_writer] ++
          (List.range n_epochs).flatMap (epoch_trace snap)) ++ final_trace := rfl
    rw [hdecomp] at hev
    rcases List.mem_append.mp hev with h1 | h2
    · rcases List.mem_append.mp h1 with h3 | h4
      · fin_cases h3 <;> rfl
      · obtain ⟨e, -, hin⟩ := List.mem_flatMap.mp h4
        have hall := List.filter_eq_nil_iff.mp (epoch_trace_filter_seeding snap e)
        simpa using hall ev hin
    · fin_cases h2 <;> rfl

end EpisodicTraining
